import Mathlib

/-!
Verification of the job-orchestration and resilience layer of the
JapanStockAnalyzer repository: distributed job lock, job-run ledger and
heartbeat, business-day classification, batched idempotent upsert, paginated
API fetch, and the Cron B HTTP entrypoint's lock lifecycle.

Pure functions from the repository (`chunkArray`, `batchUpsert`,
`isBusinessDay`, the Cron B route's control flow) are embedded directly from
their sources.  Modules whose implementation files are not present in the
source tree (`cron/job-run.ts`, `cron/job-lock.ts`, `cron/heartbeat.ts`,
`jquants/client.ts` — only their unit tests are) are modelled from the
specification's contracts; each such definition is marked in its doc comment.
-/

/-! ## Business-day classification (src: `jquants/endpoints/trading-calendar`) -/

/-- Embeds `isBusinessDay` from the trading-calendar endpoint module:
`holDiv === '1' || holDiv === '2'`. -/
def isBusinessDay (holDiv : String) : Bool :=
  holDiv == "1" || holDiv == "2"

/-! ## Array chunking and batched upsert (src: `utils/batch.ts`) -/

/-- Embeds `chunkArray` from `utils/batch.ts`: the loop
`for (i = 0; i < array.length; i += size) chunks.push(array.slice(i, i + size))`.
For `size = 0` the source loop never terminates on a non-empty array, so that
point lies outside the modelled domain; every claim below assumes `1 ≤ size`. -/
def chunkArray (l : List α) (size : Nat) : List (List α) :=
  if l.isEmpty then []
  else if size = 0 then []
  else l.take size :: chunkArray (l.drop size) size
termination_by l.length
decreasing_by
  simp only [List.length_drop]
  rename_i h1 h2
  have hl : 0 < l.length := by
    cases l with
    | nil => simp [List.isEmpty] at h1
    | cons a t => simp
  exact Nat.sub_lt hl (Nat.pos_of_ne_zero h2)

theorem chunkArray_nil (size : Nat) : chunkArray ([] : List α) size = [] := by
  simp [chunkArray]

theorem chunkArray_cons (l : List α) (size : Nat) (hl : l ≠ []) (hs : size ≠ 0) :
    chunkArray l size = l.take size :: chunkArray (l.drop size) size := by
  rw [chunkArray]
  simp [List.isEmpty_iff, hl, hs]

theorem chunkArray_flatten (size : Nat) (hs : size ≠ 0) :
    ∀ l : List α, (chunkArray l size).flatten = l := by
  have H : ∀ (n : Nat) (l : List α), l.length ≤ n → (chunkArray l size).flatten = l := by
    intro n
    induction n with
    | zero =>
      intro l hl
      have : l = [] := List.length_eq_zero.mp (Nat.le_zero.mp hl)
      simp [this, chunkArray_nil]
    | succ n ih =>
      intro l hl
      by_cases hnil : l = []
      · simp [hnil, chunkArray_nil]
      · rw [chunkArray_cons l size hnil hs]
        have hlen : (l.drop size).length ≤ n := by
          have hpos : 0 < l.length := List.length_pos.mpr hnil
          simp only [List.length_drop]
          omega
        rw [List.flatten_cons, ih (l.drop size) hlen, List.take_append_drop]
  intro l
  exact H l.length l le_rfl

theorem chunkArray_chunk_nonempty (size : Nat) (hs : size ≠ 0) :
    ∀ (l : List α), ∀ c ∈ chunkArray l size, c ≠ [] := by
  have H : ∀ (n : Nat) (l : List α), l.length ≤ n → ∀ c ∈ chunkArray l size, c ≠ [] := by
    intro n
    induction n with
    | zero =>
      intro l hl
      have : l = [] := List.length_eq_zero.mp (Nat.le_zero.mp hl)
      simp [this, chunkArray_nil]
    | succ n ih =>
      intro l hl c hc
      by_cases hnil : l = []
      · simp [hnil, chunkArray_nil] at hc
      · rw [chunkArray_cons l size hnil hs, List.mem_cons] at hc
        rcases hc with hc | hc
        · subst hc
          have hpos : 0 < l.length := List.length_pos.mpr hnil
          have : 0 < (l.take size).length := by
            simp only [List.length_take]
            omega
          exact List.length_pos.mp this
        · have hlen : (l.drop size).length ≤ n := by
            have hpos : 0 < l.length := List.length_pos.mpr hnil
            simp only [List.length_drop]
            omega
          exact ih (l.drop size) hlen c hc
  intro l
  exact H l.length l le_rfl

theorem chunkArray_full_chunks (size : Nat) (hs : size ≠ 0) :
    ∀ (l : List α) (i : Nat), i + 1 < (chunkArray l size).length →
      ((chunkArray l size).getD i []).length = size := by
  have H : ∀ (n : Nat) (l : List α), l.length ≤ n →
      ∀ i : Nat, i + 1 < (chunkArray l size).length →
        ((chunkArray l size).getD i []).length = size := by
    intro n
    induction n with
    | zero =>
      intro l hl i hi
      have : l = [] := List.length_eq_zero.mp (Nat.le_zero.mp hl)
      simp [this, chunkArray_nil] at hi
    | succ n ih =>
      intro l hl i hi
      by_cases hnil : l = []
      · simp [hnil, chunkArray_nil] at hi
      · rw [chunkArray_cons l size hnil hs] at hi ⊢
        cases i with
        | zero =>
          -- the tail is non-empty, so the list has at least `size` elements left
          simp only [List.length_cons] at hi
          have htail : chunkArray (l.drop size) size ≠ [] := by
            intro hemp
            rw [hemp] at hi
            simp at hi
          have hdrop : l.drop size ≠ [] := by
            intro hemp
            rw [hemp, chunkArray_nil] at htail
            exact htail rfl
          have : size < l.length := by
            have := List.length_pos.mpr hdrop
            simp only [List.length_drop] at this
            omega
          simp only [List.getD_cons_zero, List.length_take]
          omega
        | succ j =>
          simp only [List.getD_cons_succ]
          have hlen : (l.drop size).length ≤ n := by
            have hpos : 0 < l.length := List.length_pos.mpr hnil
            simp only [List.length_drop]
            omega
          apply ih (l.drop size) hlen j
          simpa using Nat.lt_of_succ_lt_succ hi
  intro l
  exact H l.length l le_rfl

/-- C10: for every array `a` and every chunk size `s ≥ 1`, `chunkArray a s` is a
partition of `a`: the chunks concatenate back to `a`, every chunk except
possibly the last has length exactly `s`, all chunks (in particular the last)
are non-empty when `a` is non-empty, and `chunkArray [] s = []`. -/
theorem chunkArray_partition (l : List α) (s : Nat) (hs : 1 ≤ s) :
    (chunkArray l s).flatten = l ∧
    (∀ i : Nat, i + 1 < (chunkArray l s).length → ((chunkArray l s).getD i []).length = s) ∧
    (l ≠ [] → chunkArray l s ≠ [] ∧ ∀ c ∈ chunkArray l s, c ≠ []) ∧
    chunkArray ([] : List α) s = [] := by
  have hs0 : s ≠ 0 := by omega
  refine ⟨chunkArray_flatten s hs0 l, chunkArray_full_chunks s hs0 l, ?_, chunkArray_nil s⟩
  intro hnil
  refine ⟨?_, chunkArray_chunk_nonempty s hs0 l⟩
  rw [chunkArray_cons l s hnil hs0]
  exact List.cons_ne_nil _ _

/-- Witness for C10 at the concrete input from the repository's test suite:
`chunkArray [1..10] 3`. -/
theorem chunkArray_partition_check :
    (chunkArray [1, 2, 3, 4, 5, 6, 7, 8, 9, 10] 3).flatten = [1, 2, 3, 4, 5, 6, 7, 8, 9, 10] ∧
    (∀ i : Nat, i + 1 < (chunkArray [1, 2, 3, 4, 5, 6, 7, 8, 9, 10] 3).length →
      ((chunkArray [1, 2, 3, 4, 5, 6, 7, 8, 9, 10] 3).getD i []).length = 3) ∧
    ([1, 2, 3, 4, 5, 6, 7, 8, 9, 10] ≠ ([] : List Nat) →
      chunkArray [1, 2, 3, 4, 5, 6, 7, 8, 9, 10] 3 ≠ [] ∧
      ∀ c ∈ chunkArray [1, 2, 3, 4, 5, 6, 7, 8, 9, 10] 3, c ≠ []) ∧
    chunkArray ([] : List Nat) 3 = [] :=
  chunkArray_partition [1, 2, 3, 4, 5, 6, 7, 8, 9, 10] 3 (by decide)

/-- C5: `isBusinessDay` is a pure total function on strings returning `true`
for exactly the inputs "1" and "2" and `false` for every other string. -/
theorem isBusinessDay_spec :
    isBusinessDay "1" = true ∧ isBusinessDay "2" = true ∧
    ∀ s : String, s ≠ "1" → s ≠ "2" → isBusinessDay s = false := by
  refine ⟨rfl, rfl, fun s h1 h2 => ?_⟩
  simp [isBusinessDay, h1, h2]

/-- Witness for C5 at the concrete inputs from the repository's test suite:
"0", the empty string, and an unrecognized code. -/
theorem isBusinessDay_spec_check :
    isBusinessDay "0" = false ∧ isBusinessDay "" = false ∧ isBusinessDay "invalid" = false :=
  ⟨isBusinessDay_spec.2.2 "0" (by decide) (by decide),
   isBusinessDay_spec.2.2 "" (by decide) (by decide),
   isBusinessDay_spec.2.2 "invalid" (by decide) (by decide)⟩

/-- Embeds the per-table batch-size map `BATCH_SIZES` from `utils/batch.ts`. -/
def BATCH_SIZES (tableName : String) : Option Nat :=
  if tableName = "equity_bar_daily" then some 1000
  else if tableName = "equity_master_snapshot" then some 500
  else if tableName = "equity_master" then some 500
  else if tableName = "investor_type_trading" then some 2000
  else if tableName = "financial_disclosure" then some 500
  else if tableName = "earnings_calendar" then some 1000
  else if tableName = "trading_calendar" then some 2000
  else if tableName = "topix_bar_daily" then some 2000
  else none

/-- Embeds `DEFAULT_BATCH_SIZE` from `utils/batch.ts`. -/
def DEFAULT_BATCH_SIZE : Nat := 500

/-- Response of one storage `upsert` call: PostgREST error (if any) and the
reported row count (`count: 'exact'` may still be null). -/
structure UpsertResp where
  error : Option String
  count : Option Nat
deriving Repr, DecidableEq

/-- Embeds `BatchUpsertOptions` from `utils/batch.ts` (`onBatchComplete` is
modelled as a recorded call trace instead of a callback). -/
structure BatchUpsertOptions where
  batchSize : Option Nat
  continueOnError : Option Bool
deriving Repr, DecidableEq

/-- Embeds `BatchUpsertResult` from `utils/batch.ts`. -/
structure BatchUpsertResult where
  inserted : Nat
  errors : List String
  batchCount : Nat
deriving Repr, DecidableEq

/-- Observable outcome of `batchUpsert`: the returned result (or the thrown
error, as `Except.error`), the arguments of every backend `upsert` call in
order, and every `onBatchComplete` invocation `(batchIndex, inserted, total)`. -/
structure BatchUpsertOutcome (ρ : Type) where
  result : Except String BatchUpsertResult
  upsertCalls : List (List ρ)
  batchCompleteCalls : List (Nat × Nat × Nat)
deriving Repr

/-- Embeds the chunk-failure message of `utils/batch.ts`:
`Batch ${i + 1}/${chunks.length} failed: ${error.message}` (`i` here already
1-based). -/
def batchErrorMessage (i n : Nat) (msg : String) : String :=
  "Batch " ++ toString i ++ "/" ++ toString n ++ " failed: " ++ msg

/-- Embeds the chunk loop of `batchUpsert` in `utils/batch.ts`.  Arguments
after the chunk list: 1-based index of the next chunk minus one, accumulated
`inserted`, accumulated `errors`, backend-call trace, callback trace. -/
def batchUpsertGo (backend : List ρ → UpsertResp) (total numChunks : Nat)
    (continueOnError : Bool) :
    List (List ρ) → Nat → Nat → List String → List (List ρ) →
    List (Nat × Nat × Nat) → BatchUpsertOutcome ρ
  | [], _, inserted, errors, calls, cbs =>
    ⟨Except.ok ⟨inserted, errors, numChunks⟩, calls, cbs⟩
  | chunk :: rest, i, inserted, errors, calls, cbs =>
    match (backend chunk).error with
    | some msg =>
      if continueOnError then
        batchUpsertGo backend total numChunks continueOnError rest (i + 1) inserted
          (errors ++ [batchErrorMessage (i + 1) numChunks msg]) (calls ++ [chunk])
          (cbs ++ [(i + 1, inserted, total)])
      else
        ⟨Except.error (batchErrorMessage (i + 1) numChunks msg), calls ++ [chunk], cbs⟩
    | none =>
      batchUpsertGo backend total numChunks continueOnError rest (i + 1)
        (inserted + ((backend chunk).count.getD chunk.length)) errors (calls ++ [chunk])
        (cbs ++ [(i + 1, inserted + ((backend chunk).count.getD chunk.length), total)])

/-- Splits a character list at every occurrence of `sep`, modelling JavaScript
`String.prototype.split` with a single-character separator (`''.split('.')`
gives `['']`, and a trailing separator yields a trailing empty part, exactly
as in JS). -/
def splitOnChar (sep : Char) : List Char → List (List Char)
  | [] => [[]]
  | c :: rest =>
    let r := splitOnChar sep rest
    if c = sep then [] :: r
    else
      match r with
      | [] => [[c]]
      | h :: t => (c :: h) :: t

/-- Embeds the table-name extraction `table.split('.').pop() ?? table` from
`batchUpsert` in `utils/batch.ts` (the split result is never empty, so the
`?? table` fallback is unreachable, as in the source). -/
def tableBaseName (table : String) : String :=
  match (splitOnChar '.' table.data).getLast? with
  | some cs => String.mk cs
  | none => table

/-- Embeds `batchUpsert` from `utils/batch.ts`.  The storage backend is a
parameter mapping each submitted chunk to its `upsert` response; the table-name
extraction (`table.split('.').pop() ?? table`), batch-size selection
(`options?.batchSize ?? BATCH_SIZES[tableName] ?? DEFAULT_BATCH_SIZE`) and the
empty-input short circuit follow the source. -/
def batchUpsert (backend : List ρ → UpsertResp) (table : String) (data : List ρ)
    (options : BatchUpsertOptions) : BatchUpsertOutcome ρ :=
  if data.isEmpty then ⟨Except.ok ⟨0, [], 0⟩, [], []⟩
  else
    let tableName := tableBaseName table
    let batchSize := options.batchSize.getD ((BATCH_SIZES tableName).getD DEFAULT_BATCH_SIZE)
    let continueOnError := options.continueOnError.getD false
    let chunks := chunkArray data batchSize
    batchUpsertGo backend data.length chunks.length continueOnError chunks 0 0 [] [] []

theorem chunkArray_1500_1000 (data : List ρ) (h : data.length = 1500) :
    chunkArray data 1000 = [data.take 1000, data.drop 1000] := by
  have hne : data ≠ [] := by
    intro he
    rw [he] at h
    simp at h
  rw [chunkArray_cons data 1000 hne (by omega)]
  have hdlen : (data.drop 1000).length = 500 := by
    simp [List.length_drop, h]
  have hdne : data.drop 1000 ≠ [] := by
    intro he
    rw [he] at hdlen
    simp at hdlen
  rw [chunkArray_cons (data.drop 1000) 1000 hdne (by omega)]
  rw [show (data.drop 1000).take 1000 = data.drop 1000 from List.take_of_length_le (by omega),
    show (data.drop 1000).drop 1000 = [] from List.drop_eq_nil_iff.mpr (by omega),
    chunkArray_nil]

/-- C4: `batchUpsert` on an empty row list returns `{inserted: 0, errors: [],
batchCount: 0}` without issuing any backend call; over 1,500 rows against a
table whose configured chunk size is 1,000 it issues exactly 2 upsert calls
and returns the sum of their reported counts; when a chunk's upsert reports an
error and `continueOnError` is not set it aborts immediately by throwing
`Batch i/n failed: ...` naming the failing chunk index and the total chunk
count (the second chunk is never issued); with `continueOnError` set it
collects the per-chunk errors and processes the remaining chunks. -/
theorem batchUpsert_contract (ρ : Type) :
    (∀ (backend : List ρ → UpsertResp) (table : String) (opts : BatchUpsertOptions),
      batchUpsert backend table [] opts = ⟨Except.ok ⟨0, [], 0⟩, [], []⟩) ∧
    (∀ (backend : List ρ → UpsertResp) (table : String) (data : List ρ) (c1 c2 : Nat),
      data.length = 1500 →
      BATCH_SIZES (tableBaseName table) = some 1000 →
      backend (data.take 1000) = ⟨none, some c1⟩ →
      backend (data.drop 1000) = ⟨none, some c2⟩ →
      batchUpsert backend table data ⟨none, none⟩ =
        ⟨Except.ok ⟨c1 + c2, [], 2⟩, [data.take 1000, data.drop 1000],
          [(1, c1, 1500), (2, c1 + c2, 1500)]⟩) ∧
    (∀ (backend : List ρ → UpsertResp) (table : String) (data : List ρ) (m : String),
      data.length = 1500 →
      BATCH_SIZES (tableBaseName table) = some 1000 →
      backend (data.take 1000) = ⟨some m, none⟩ →
      batchUpsert backend table data ⟨none, none⟩ =
        ⟨Except.error (batchErrorMessage 1 2 m), [data.take 1000], []⟩) ∧
    (∀ (backend : List ρ → UpsertResp) (table : String) (data : List ρ) (m1 m2 : String),
      data.length = 1500 →
      BATCH_SIZES (tableBaseName table) = some 1000 →
      backend (data.take 1000) = ⟨some m1, none⟩ →
      backend (data.drop 1000) = ⟨some m2, none⟩ →
      batchUpsert backend table data ⟨none, some true⟩ =
        ⟨Except.ok ⟨0, [batchErrorMessage 1 2 m1, batchErrorMessage 2 2 m2], 2⟩,
          [data.take 1000, data.drop 1000], [(1, 0, 1500), (2, 0, 1500)]⟩) ∧
    batchErrorMessage 1 2 "chunk failed" = "Batch 1/2 failed: chunk failed" := by
  refine ⟨?_, ?_, ?_, ?_, by decide⟩
  · intro backend table opts
    simp [batchUpsert]
  · intro backend table data c1 c2 hlen hbs hb1 hb2
    have hne : data.isEmpty = false := by
      cases data with
      | nil => simp at hlen
      | cons a t => rfl
    simp [batchUpsert, hne, hbs, hlen, chunkArray_1500_1000 data hlen, batchUpsertGo, hb1, hb2]
  · intro backend table data m hlen hbs hb1
    have hne : data.isEmpty = false := by
      cases data with
      | nil => simp at hlen
      | cons a t => rfl
    simp [batchUpsert, hne, hbs, hlen, chunkArray_1500_1000 data hlen, batchUpsertGo, hb1]
  · intro backend table data m1 m2 hlen hbs hb1 hb2
    have hne : data.isEmpty = false := by
      cases data with
      | nil => simp at hlen
      | cons a t => rfl
    simp [batchUpsert, hne, hbs, hlen, chunkArray_1500_1000 data hlen, batchUpsertGo, hb1, hb2]

/-- Witness for C4 on concrete data: 1,500 rows against a table with
configured chunk size 1,000, with a succeeding, an aborting and an
error-collecting backend. -/
theorem batchUpsert_contract_check :
    (batchUpsert (fun _ => UpsertResp.mk none (some 7)) "x" ([] : List Nat) ⟨none, none⟩ =
      ⟨Except.ok ⟨0, [], 0⟩, [], []⟩) ∧
    (batchUpsert (fun _ => UpsertResp.mk none (some 7)) "jquants_ingest.equity_bar_daily"
        (List.range 1500) ⟨none, none⟩ =
      ⟨Except.ok ⟨7 + 7, [], 2⟩, [(List.range 1500).take 1000, (List.range 1500).drop 1000],
        [(1, 7, 1500), (2, 7 + 7, 1500)]⟩) ∧
    (batchUpsert (fun _ => UpsertResp.mk (some "boom") none) "equity_bar_daily"
        (List.range 1500) ⟨none, none⟩ =
      ⟨Except.error (batchErrorMessage 1 2 "boom"), [(List.range 1500).take 1000], []⟩) ∧
    (batchUpsert (fun _ => UpsertResp.mk (some "boom") none) "equity_bar_daily"
        (List.range 1500) ⟨none, some true⟩ =
      ⟨Except.ok ⟨0, [batchErrorMessage 1 2 "boom", batchErrorMessage 2 2 "boom"], 2⟩,
        [(List.range 1500).take 1000, (List.range 1500).drop 1000],
        [(1, 0, 1500), (2, 0, 1500)]⟩) :=
  ⟨(batchUpsert_contract Nat).1 _ _ _,
   (batchUpsert_contract Nat).2.1 _ _ _ 7 7 (by simp) (by decide) rfl rfl,
   (batchUpsert_contract Nat).2.2.1 _ _ _ "boom" (by simp) (by decide) rfl,
   (batchUpsert_contract Nat).2.2.2.1 _ _ _ "boom" "boom" (by simp) (by decide) rfl rfl⟩

/-! ## Job-run ledger (spec §4.6; implementation file `cron/job-run.ts` is not
in the source tree — only its unit tests are — so the functions below are
modelled from the spec, with the uniqueness constraint taken from the SQL
migration `uq_job_runs_job_target` that *is* in the source tree). -/

/-- PostgREST-style storage error, as surfaced to the ledger layer
(`{ code, message }`). -/
structure PgError where
  code : String
  message : String
deriving Repr, DecidableEq

/-- One `job_runs` row (schema from `00002_create_ingest_tables.sql`). -/
structure JobRunRow where
  runId : String
  jobName : String
  targetDate : Option String
  status : String
  finishedAt : Option String
  errorMessage : Option String
deriving Repr, DecidableEq

/-- The `job_runs` table. -/
structure JobRunDB where
  rows : List JobRunRow
deriving Repr, DecidableEq

/-- Duplicate test of the partial unique index `uq_job_runs_job_target` on
`(job_name, target_date) where target_date is not null` (from the SQL
migration in the source tree). -/
def hasJobDateRow (db : JobRunDB) (job : String) (date : Option String) : Bool :=
  match date with
  | none => false
  | some d => db.rows.any fun r => r.jobName == job && r.targetDate == some d

/-- Storage-level conditional insert into `job_runs`: fails with code 23505
(unique violation) when the partial unique index rejects the row, without
creating a row; otherwise appends the row. -/
def insertJobRun (db : JobRunDB) (row : JobRunRow) : JobRunDB × Option PgError :=
  if hasJobDateRow db row.jobName row.targetDate then
    (db, some ⟨"23505", "duplicate key value violates unique constraint"⟩)
  else (⟨db.rows ++ [row]⟩, none)

/-- Result record of `startJobRun` (`{ runId, error? }`). -/
structure StartJobRunResult where
  runId : String
  error : Option String
deriving Repr, DecidableEq

/-- Modelled from the spec: the error translation inside `startJobRun` of
`cron/job-run.ts` (file not in the source tree).  Per spec §4.6 a
uniqueness-constraint violation is translated to the specific
"already executed" error, distinct from generic DB errors which surface
as-is; the unit tests pin the exact message and the empty run id. -/
def startJobRunClassify (resp : Option PgError) (newRunId : String) : StartJobRunResult :=
  match resp with
  | none => ⟨newRunId, none⟩
  | some e =>
    if e.code == "23505" then ⟨"", some "Job already executed for this target date"⟩
    else ⟨"", some e.message⟩

/-- Modelled from the spec: `startJobRun` of `cron/job-run.ts` (file not in
the source tree).  Inserts a `running` row for `(jobName, targetDate)` with a
freshly generated run id and classifies the storage response. -/
def startJobRun (db : JobRunDB) (newRunId jobName : String) (targetDate : Option String) :
    JobRunDB × StartJobRunResult :=
  let row : JobRunRow := ⟨newRunId, jobName, targetDate, "running", none, none⟩
  let (db2, e) := insertJobRun db row
  (db2, startJobRunClassify e newRunId)

/-- C1: for every job name and target date, a first call to `startJobRun`
inserts a `running` row and returns its run id with no error; a second call
with the same (job name, target date) hits the 23505 uniqueness violation,
returns an empty run id with the error "Job already executed for this target
date" and creates no new row; any other storage error surfaces as that
error's own message. -/
theorem startJobRun_idempotency
    (db : JobRunDB) (job d rid1 rid2 : String)
    (hfresh : hasJobDateRow db job (some d) = false) :
    (startJobRun db rid1 job (some d) =
      (⟨db.rows ++ [⟨rid1, job, some d, "running", none, none⟩]⟩, ⟨rid1, none⟩)) ∧
    (startJobRun (startJobRun db rid1 job (some d)).1 rid2 job (some d) =
      ((startJobRun db rid1 job (some d)).1,
        ⟨"", some "Job already executed for this target date"⟩)) ∧
    (∀ (e : PgError) (rid : String), e.code ≠ "23505" →
      startJobRunClassify (some e) rid = ⟨"", some e.message⟩) := by
  refine ⟨?_, ?_, ?_⟩
  · simp [startJobRun, insertJobRun, hfresh, startJobRunClassify]
  · have hdup :
        hasJobDateRow ⟨db.rows ++ [⟨rid1, job, some d, "running", none, none⟩]⟩
          job (some d) = true := by
      simp [hasJobDateRow]
    simp [startJobRun, insertJobRun, hfresh, hdup, startJobRunClassify]
  · intro e rid he
    simp [startJobRunClassify, he]

/-- Witness for C1 at a concrete empty ledger, job `cron_a`, date 2024-01-15,
and the generic storage error from the unit tests. -/
theorem startJobRun_idempotency_check :
    (startJobRun ⟨[]⟩ "run-1" "cron_a" (some "2024-01-15") =
      (⟨[⟨"run-1", "cron_a", some "2024-01-15", "running", none, none⟩]⟩, ⟨"run-1", none⟩)) ∧
    (startJobRun (startJobRun ⟨[]⟩ "run-1" "cron_a" (some "2024-01-15")).1 "run-2" "cron_a"
        (some "2024-01-15") =
      ((startJobRun ⟨[]⟩ "run-1" "cron_a" (some "2024-01-15")).1,
        ⟨"", some "Job already executed for this target date"⟩)) ∧
    (∀ (e : PgError) (rid : String), e.code ≠ "23505" →
      startJobRunClassify (some e) rid = ⟨"", some e.message⟩) := by
  have h := startJobRun_idempotency ⟨[]⟩ "cron_a" "2024-01-15" "run-1" "run-2" (by decide)
  exact ⟨h.1, h.2.1, h.2.2⟩

/-- Truncation cap for `job_runs.error_message` (10,000 characters, pinned by
the unit tests). -/
def ERROR_MESSAGE_MAX_LENGTH : Nat := 10000

/-- Modelled from the spec: the error-message truncation inside
`completeJobRun` of `cron/job-run.ts` (file not in the source tree).  A
message longer than the cap is cut to its first 10,000 characters with the
marker `... (truncated)` appended; the unit tests pin the marker. -/
def truncateErrorMessage (msg : String) : String :=
  if msg.length > ERROR_MESSAGE_MAX_LENGTH then
    String.mk (msg.data.take ERROR_MESSAGE_MAX_LENGTH) ++ "... (truncated)"
  else msg

/-- Update applied by `completeJobRun` to the row matching the run id:
terminal status, finished-at timestamp, truncated error message. -/
def applyCompleteUpdate (rid nowIso status : String) (err : Option String)
    (r : JobRunRow) : JobRunRow :=
  if r.runId == rid then
    { r with
      status := status
      finishedAt := some nowIso
      errorMessage := err.map truncateErrorMessage }
  else r

/-- Modelled from the spec: `completeJobRun` of `cron/job-run.ts` (file not in
the source tree).  Updates the matching row's status/finished-at/error
message; a storage error (`dbError`) is logged and swallowed — the function
returns normally (`Except.ok`) on every input and never propagates a thrown
error. -/
def completeJobRun (db : JobRunDB) (dbError : Option String)
    (rid nowIso status : String) (err : Option String) : JobRunDB × Except String Unit :=
  match dbError with
  | some _ => (db, Except.ok ())
  | none => (⟨db.rows.map (applyCompleteUpdate rid nowIso status err)⟩, Except.ok ())

/-- C7: `completeJobRun` updates the matching row's status and finished-at
timestamp; an error message longer than 10,000 characters is stored truncated
to its first 10,000 characters with the truncation marker appended; a shorter
message is stored verbatim; and a storage error is swallowed — the call
returns normally on every input and never throws. -/
theorem completeJobRun_contract :
    (∀ (db : JobRunDB) (r : JobRunRow) (rid nowIso status : String) (err : Option String),
      r ∈ db.rows → r.runId = rid →
      { r with
        status := status
        finishedAt := some nowIso
        errorMessage := err.map truncateErrorMessage } ∈
          (completeJobRun db none rid nowIso status err).1.rows) ∧
    (∀ msg : String, msg.length > ERROR_MESSAGE_MAX_LENGTH →
      truncateErrorMessage msg = String.mk (msg.data.take ERROR_MESSAGE_MAX_LENGTH) ++
        "... (truncated)") ∧
    (∀ msg : String, msg.length ≤ ERROR_MESSAGE_MAX_LENGTH → truncateErrorMessage msg = msg) ∧
    (∀ (db : JobRunDB) (dbError : Option String) (rid nowIso status : String)
        (err : Option String),
      (completeJobRun db dbError rid nowIso status err).2 = Except.ok ()) ∧
    (∀ (db : JobRunDB) (e rid nowIso status : String) (err : Option String),
      (completeJobRun db (some e) rid nowIso status err).1 = db) := by
  refine ⟨?_, ?_, ?_, ?_, ?_⟩
  · intro db r rid nowIso status err hmem hrid
    have : applyCompleteUpdate rid nowIso status err r =
        { r with
          status := status
          finishedAt := some nowIso
          errorMessage := err.map truncateErrorMessage } := by
      simp [applyCompleteUpdate, hrid]
    simpa [completeJobRun, this] using List.mem_map_of_mem (applyCompleteUpdate rid nowIso status err) hmem
  · intro msg h
    simp [truncateErrorMessage, h]
  · intro msg h
    simp [truncateErrorMessage]
    omega
  · intro db dbError rid nowIso status err
    cases dbError with
    | none => rfl
    | some e => rfl
  · intro db e rid nowIso status err
    rfl

/-- Witness for C7: a concrete one-row ledger completed as `failed` with an
over-long message (10,001 characters), plus the swallowed-error branch. -/
theorem completeJobRun_contract_check :
    ({ (⟨"run-123", "cron_a", some "2024-01-15", "running", none, none⟩ : JobRunRow) with
        status := "failed"
        finishedAt := some "2024-01-15T10:00:00.000Z"
        errorMessage := (some (String.mk (List.replicate 10001 'x'))).map truncateErrorMessage } ∈
      (completeJobRun ⟨[⟨"run-123", "cron_a", some "2024-01-15", "running", none, none⟩]⟩ none
        "run-123" "2024-01-15T10:00:00.000Z" "failed"
        (some (String.mk (List.replicate 10001 'x')))).1.rows) ∧
    (truncateErrorMessage (String.mk (List.replicate 10001 'x')) =
      String.mk ((String.mk (List.replicate 10001 'x')).data.take ERROR_MESSAGE_MAX_LENGTH) ++
        "... (truncated)") ∧
    (truncateErrorMessage "API timeout" = "API timeout") ∧
    ((completeJobRun ⟨[]⟩ (some "DB Error") "run-123" "t" "success" none).2 = Except.ok ()) ∧
    ((completeJobRun ⟨[]⟩ (some "DB Error") "run-123" "t" "success" none).1 = ⟨[]⟩) :=
  ⟨completeJobRun_contract.1 _ _ _ _ _ _ (List.mem_singleton.mpr rfl) rfl,
   completeJobRun_contract.2.1 _
     (by rw [String.length_mk, List.length_replicate]; simp [ERROR_MESSAGE_MAX_LENGTH]),
   completeJobRun_contract.2.2.1 _ (by decide),
   completeJobRun_contract.2.2.2.1 _ _ _ _ _ _,
   completeJobRun_contract.2.2.2.2 _ _ _ _ _ _⟩

/-! ## Distributed job lock (spec §4.5; implementation file `cron/job-lock.ts`
is not in the source tree — only its unit tests are — so the operations below
are modelled from the spec, with the exact error strings pinned by the unit
tests).  Time is modelled as a `Nat` (seconds); the lock table holds at most
one row per job name, so the state for one job is an optional row. -/

/-- One `job_locks` row for a fixed job name: absolute expiry and the opaque
token issued to the holder. -/
structure LockRow where
  lockedUntil : Nat
  token : String
deriving Repr, DecidableEq

/-- Result record of `acquireLock` (`{ success, token?, error? }`). -/
structure AcquireResult where
  success : Bool
  token : Option String
  error : Option String
deriving Repr, DecidableEq

/-- Modelled from the spec: `acquireLock` of `cron/job-lock.ts` (file not in
the source tree), with the read and the write exposed separately so that a
concurrent writer between them can be expressed.  `stRead` is the row seen by
the initial read, `stWrite` the row present when the insert / guarded update
executes.  Per spec §4.5: no row → insert (a uniqueness violation, i.e. a row
appearing concurrently, fails with "already held"); a row with `lockedUntil`
in the future → fail "already held"; an expired row → conditional update
guarded on the previously read expiry, and a guard miss fails with the
distinct race-condition error. -/
def acquireLockRW (stRead stWrite : Option LockRow) (now ttl : Nat) (newToken : String) :
    Option LockRow × AcquireResult :=
  match stRead with
  | none =>
    match stWrite with
    | none => (some ⟨now + ttl, newToken⟩, ⟨true, some newToken, none⟩)
    | some w => (some w, ⟨false, none, some "Lock already held by another process"⟩)
  | some row =>
    if now < row.lockedUntil then
      (stWrite, ⟨false, none, some "Lock already held by another process"⟩)
    else
      match stWrite with
      | some w =>
        if w.lockedUntil == row.lockedUntil then
          (some ⟨now + ttl, newToken⟩, ⟨true, some newToken, none⟩)
        else (some w, ⟨false, none, some "Failed to acquire lock (race condition)"⟩)
      | none => (none, ⟨false, none, some "Failed to acquire lock (race condition)"⟩)

/-- `acquireLock` as one atomic step (no interference between read and
write). -/
def acquireLock (st : Option LockRow) (now ttl : Nat) (newToken : String) :
    Option LockRow × AcquireResult :=
  acquireLockRW st st now ttl newToken

/-- Modelled from the spec: `releaseLock` of `cron/job-lock.ts` — delete the
row matching both job name and token; a token mismatch is a no-op. -/
def releaseLock (st : Option LockRow) (token : String) : Option LockRow :=
  match st with
  | some row => if row.token == token then none else st
  | none => none

/-- Modelled from the spec: `extendLock` of `cron/job-lock.ts` — conditional
update of `lockedUntil` matching job name and token; returns whether the
extension took effect. -/
def extendLock (st : Option LockRow) (token : String) (now ttl : Nat) :
    Option LockRow × Bool :=
  match st with
  | some row =>
    if row.token == token then (some ⟨now + ttl, row.token⟩, true) else (st, false)
  | none => (none, false)

/-- Modelled from the spec: `cleanupExpiredLocks` of `cron/job-lock.ts` —
delete every row with `lockedUntil` strictly in the past, returning the
deleted count. -/
def cleanupExpiredLocks (st : Option LockRow) (now : Nat) : Option LockRow × Nat :=
  match st with
  | some row => if row.lockedUntil < now then (none, 1) else (st, 0)
  | none => (none, 0)

/-- C2: the four outcomes of `acquireLock` per spec §4.5, with the exact
errors pinned by the unit tests. -/
theorem acquireLock_outcomes
    (now ttl : Nat) (newToken : String) :
    (acquireLockRW none none now ttl newToken =
      (some ⟨now + ttl, newToken⟩, ⟨true, some newToken, none⟩)) ∧
    (∀ w : LockRow, acquireLockRW none (some w) now ttl newToken =
      (some w, ⟨false, none, some "Lock already held by another process"⟩)) ∧
    (∀ (row : LockRow) (stWrite : Option LockRow), now < row.lockedUntil →
      acquireLockRW (some row) stWrite now ttl newToken =
        (stWrite, ⟨false, none, some "Lock already held by another process"⟩)) ∧
    (∀ (row w : LockRow), ¬ now < row.lockedUntil → w.lockedUntil ≠ row.lockedUntil →
      acquireLockRW (some row) (some w) now ttl newToken =
        (some w, ⟨false, none, some "Failed to acquire lock (race condition)"⟩)) ∧
    (∀ row : LockRow, ¬ now < row.lockedUntil →
      acquireLockRW (some row) none now ttl newToken =
        (none, ⟨false, none, some "Failed to acquire lock (race condition)"⟩)) ∧
    (∀ row : LockRow, ¬ now < row.lockedUntil →
      acquireLock (some row) now ttl newToken =
        (some ⟨now + ttl, newToken⟩, ⟨true, some newToken, none⟩)) := by
  refine ⟨rfl, fun w => rfl, ?_, ?_, ?_, ?_⟩
  · intro row stWrite h
    simp [acquireLockRW, h]
  · intro row w h hne
    simp [acquireLockRW, h, hne]
  · intro row h
    simp [acquireLockRW, h]
  · intro row h
    simp [acquireLock, acquireLockRW, h]

/-- Witness for C2 at the unit tests' concrete times (now = 10:00 as epoch
seconds offset 36000, a valid lock until 37800, an expired lock from 32400). -/
theorem acquireLock_outcomes_check :
    (acquireLockRW none none 36000 600 "mock-uuid-token" =
      (some ⟨36600, "mock-uuid-token"⟩, ⟨true, some "mock-uuid-token", none⟩)) ∧
    (acquireLockRW none (some ⟨37800, "existing-token"⟩) 36000 600 "mock-uuid-token" =
      (some ⟨37800, "existing-token"⟩,
        ⟨false, none, some "Lock already held by another process"⟩)) ∧
    (acquireLockRW (some ⟨37800, "existing-token"⟩) (some ⟨37800, "existing-token"⟩)
        36000 600 "mock-uuid-token" =
      (some ⟨37800, "existing-token"⟩,
        ⟨false, none, some "Lock already held by another process"⟩)) ∧
    (acquireLockRW (some ⟨32400, "old-token"⟩) (some ⟨36300, "racer-token"⟩)
        36000 600 "mock-uuid-token" =
      (some ⟨36300, "racer-token"⟩,
        ⟨false, none, some "Failed to acquire lock (race condition)"⟩)) ∧
    (acquireLock (some ⟨32400, "old-token"⟩) 36000 600 "mock-uuid-token" =
      (some ⟨36600, "mock-uuid-token"⟩, ⟨true, some "mock-uuid-token", none⟩)) :=
  ⟨(acquireLock_outcomes 36000 600 "mock-uuid-token").1,
   (acquireLock_outcomes 36000 600 "mock-uuid-token").2.1 _,
   (acquireLock_outcomes 36000 600 "mock-uuid-token").2.2.1 _ _ (by decide),
   (acquireLock_outcomes 36000 600 "mock-uuid-token").2.2.2.1 _ _ (by decide) (by decide),
   (acquireLock_outcomes 36000 600 "mock-uuid-token").2.2.2.2.2 _ (by decide)⟩

/-- One lock operation of the state machine (time carried per operation). -/
inductive LockOp where
  | acquire (time ttl : Nat) (newToken : String)
  | release (token : String)
  | extend (token : String) (time ttl : Nat)
  | cleanup (time : Nat)
deriving Repr, DecidableEq

/-- Runs a sequence of atomic lock operations, collecting the result of every
`acquireLock` attempt in order. -/
def runLockOps : Option LockRow → List LockOp → Option LockRow × List AcquireResult
  | st, [] => (st, [])
  | st, LockOp.acquire t ttl tk :: rest =>
    let step := acquireLock st t ttl tk
    let tail := runLockOps step.1 rest
    (tail.1, step.2 :: tail.2)
  | st, LockOp.release tk :: rest => runLockOps (releaseLock st tk) rest
  | st, LockOp.extend tk t ttl :: rest => runLockOps (extendLock st tk t ttl).1 rest
  | st, LockOp.cleanup t :: rest => runLockOps (cleanupExpiredLocks st t).1 rest

/-- An operation performed by a caller other than the holder of `tok`, before
the holder's lease deadline: acquire attempts use a different (fresh random)
token and happen before the deadline; release/extend present a different
token; cleanup may run at any time before the deadline. -/
def opAllowed (tok : String) (deadline : Nat) : LockOp → Prop
  | LockOp.acquire t _ tk => tk ≠ tok ∧ t < deadline
  | LockOp.release tk => tk ≠ tok
  | LockOp.extend tk _ _ => tk ≠ tok
  | LockOp.cleanup t => t < deadline

theorem acquireLock_success_state (st : Option LockRow) (now ttl : Nat) (tk : String)
    (h : (acquireLock st now ttl tk).2.success = true) :
    (acquireLock st now ttl tk).1 = some ⟨now + ttl, tk⟩ := by
  match st with
  | none => rfl
  | some row =>
    by_cases hv : now < row.lockedUntil
    · simp [acquireLock, acquireLockRW, hv] at h
    · simp [acquireLock, acquireLockRW, hv] at h ⊢

theorem lockStep_preserved (deadline : Nat) (tok : String) (op : LockOp)
    (hop : opAllowed tok deadline op) :
    (match op with
      | LockOp.acquire t ttl tk =>
        (acquireLock (some ⟨deadline, tok⟩) t ttl tk).1 = some ⟨deadline, tok⟩ ∧
        (acquireLock (some ⟨deadline, tok⟩) t ttl tk).2.success = false
      | LockOp.release tk => releaseLock (some ⟨deadline, tok⟩) tk = some ⟨deadline, tok⟩
      | LockOp.extend tk t ttl =>
        (extendLock (some ⟨deadline, tok⟩) tk t ttl).1 = some ⟨deadline, tok⟩
      | LockOp.cleanup t =>
        (cleanupExpiredLocks (some ⟨deadline, tok⟩) t).1 = some ⟨deadline, tok⟩) := by
  match op with
  | LockOp.acquire t ttl tk =>
    obtain ⟨-, ht⟩ := hop
    constructor
    · simp [acquireLock, acquireLockRW, ht]
    · simp [acquireLock, acquireLockRW, ht]
  | LockOp.release tk =>
    have : tk ≠ tok := hop
    simp [releaseLock, this.symm]
  | LockOp.extend tk t ttl =>
    have : tk ≠ tok := hop
    simp [extendLock, this.symm]
  | LockOp.cleanup t =>
    have ht : t < deadline := hop
    have hnot : ¬ deadline < t := by omega
    simp [cleanupExpiredLocks, hnot]

/-- C3: mutual exclusion of the lock state machine.  Once a lock is acquired
at time `t0` with TTL `T` and token `tok`, then for every sequence of
operations by other callers (different tokens) executed before the deadline
`t0 + T` and before any release by the holder, the lock row stays exactly the
holder's row — so no second simultaneously valid holder ever exists — and
every `acquireLock` attempt in the sequence returns `success = false`. -/
theorem lock_mutual_exclusion (st0 : Option LockRow) (t0 T : Nat) (tok : String)
    (ops : List LockOp)
    (hacq : (acquireLock st0 t0 T tok).2.success = true)
    (hops : ∀ op ∈ ops, opAllowed tok (t0 + T) op) :
    (runLockOps (acquireLock st0 t0 T tok).1 ops).1 = some ⟨t0 + T, tok⟩ ∧
    ∀ r ∈ (runLockOps (acquireLock st0 t0 T tok).1 ops).2, r.success = false := by
  rw [acquireLock_success_state st0 t0 T tok hacq]
  have main : ∀ (l : List LockOp), (∀ op ∈ l, opAllowed tok (t0 + T) op) →
      (runLockOps (some ⟨t0 + T, tok⟩) l).1 = some ⟨t0 + T, tok⟩ ∧
      ∀ r ∈ (runLockOps (some ⟨t0 + T, tok⟩) l).2, r.success = false := by
    intro l
    induction l with
    | nil => intro _; exact ⟨rfl, by simp [runLockOps]⟩
    | cons op rest ih =>
      intro hl
      have hop := hl op (List.mem_cons_self op rest)
      have hrest := ih fun o ho => hl o (List.mem_cons_of_mem op ho)
      match op with
      | LockOp.acquire t ttl tk =>
        have hstep := lockStep_preserved (t0 + T) tok (LockOp.acquire t ttl tk) hop
        simp only [runLockOps]
        rw [hstep.1]
        refine ⟨hrest.1, ?_⟩
        intro r hr
        rw [List.mem_cons] at hr
        rcases hr with hr | hr
        · rw [hr]; exact hstep.2
        · exact hrest.2 r hr
      | LockOp.release tk =>
        have hstep := lockStep_preserved (t0 + T) tok (LockOp.release tk) hop
        simp only [runLockOps]
        rw [hstep]
        exact hrest
      | LockOp.extend tk t ttl =>
        have hstep := lockStep_preserved (t0 + T) tok (LockOp.extend tk t ttl) hop
        simp only [runLockOps]
        rw [hstep]
        exact hrest
      | LockOp.cleanup t =>
        have hstep := lockStep_preserved (t0 + T) tok (LockOp.cleanup t) hop
        simp only [runLockOps]
        rw [hstep]
        exact hrest
  exact main ops hops

/-- Witness for C3: the holder acquires at time 0 with TTL 600; another
process attempts to acquire at times 10 and 599, a foreign release, a foreign
extend and a cleanup run in between — the holder's row survives and both
acquire attempts fail. -/
theorem lock_mutual_exclusion_check :
    (runLockOps (acquireLock none 0 600 "holder-token").1
      [LockOp.acquire 10 600 "other-token-1", LockOp.release "other-token-2",
       LockOp.extend "other-token-3" 20 600, LockOp.cleanup 30,
       LockOp.acquire 599 600 "other-token-4"]).1 = some ⟨600, "holder-token"⟩ ∧
    ∀ r ∈ (runLockOps (acquireLock none 0 600 "holder-token").1
      [LockOp.acquire 10 600 "other-token-1", LockOp.release "other-token-2",
       LockOp.extend "other-token-3" 20 600, LockOp.cleanup 30,
       LockOp.acquire 599 600 "other-token-4"]).2, r.success = false := by
  have h := lock_mutual_exclusion none 0 600 "holder-token"
    [LockOp.acquire 10 600 "other-token-1", LockOp.release "other-token-2",
     LockOp.extend "other-token-3" 20 600, LockOp.cleanup 30,
     LockOp.acquire 599 600 "other-token-4"] rfl
    (by
      intro op hop
      fin_cases hop <;> simp [opAllowed])
  simpa using h

/-! ## Heartbeat health check (spec §4.6; implementation file
`cron/heartbeat.ts` is not in the source tree — only its unit tests are — so
`isJobHealthy` is modelled from the spec).  Timestamps are epoch
milliseconds (`Int`), matching the JS `Date.now() - new Date(...).getTime()`
age computation exactly. -/

/-- One `job_heartbeat` row (fields used by the health check). -/
structure HeartbeatRecord where
  jobName : String
  lastSeenAt : Int
  lastStatus : String
  lastError : Option String
deriving Repr, DecidableEq

/-- Health-check result (`{ healthy, reason? }`). -/
structure HealthResult where
  healthy : Bool
  reason : Option String
deriving Repr, DecidableEq

/-- Default staleness threshold of `isJobHealthy` (25 hours). -/
def DEFAULT_STALE_HOURS : Nat := 25

/-- Milliseconds in one hour. -/
def MS_PER_HOUR : Int := 3600000

/-- Modelled from the spec: `isJobHealthy` of `cron/heartbeat.ts` (file not in
the source tree).  Pure function, checks in spec §4.6 order: no record →
unhealthy "No heartbeat record found"; age beyond the staleness threshold →
unhealthy (stale, with the age in whole hours); last status `failed` →
unhealthy; otherwise healthy (a `running` status is not itself unhealthy). -/
def isJobHealthy (now : Int) (hb : Option HeartbeatRecord) (staleHours : Nat) : HealthResult :=
  match hb with
  | none => ⟨false, some "No heartbeat record found"⟩
  | some h =>
    let ageMs := now - h.lastSeenAt
    if ageMs > (staleHours : Int) * MS_PER_HOUR then
      ⟨false, some ("Stale: last seen " ++ toString (ageMs / MS_PER_HOUR) ++ " hours ago")⟩
    else if h.lastStatus == "failed" then
      ⟨false, some ("Last run failed: " ++ (h.lastError.getD "Unknown error"))⟩
    else ⟨true, none⟩

/-- `isJobHealthy` with its default staleness threshold. -/
def isJobHealthyDefault (now : Int) (hb : Option HeartbeatRecord) : HealthResult :=
  isJobHealthy now hb DEFAULT_STALE_HOURS

/-- C6: `isJobHealthy` is pure: a null record is unhealthy with reason
"No heartbeat record found"; a record whose last status is `failed` is
unhealthy regardless of recency; a record older than the threshold is
unhealthy regardless of status; every record newer than the threshold whose
status is not `failed` — including `running` — is healthy; the default
threshold is 25 hours. -/
theorem isJobHealthy_spec :
    (∀ (now : Int) (th : Nat),
      isJobHealthy now none th = ⟨false, some "No heartbeat record found"⟩) ∧
    (∀ (now : Int) (h : HeartbeatRecord) (th : Nat), h.lastStatus = "failed" →
      (isJobHealthy now (some h) th).healthy = false) ∧
    (∀ (now : Int) (h : HeartbeatRecord) (th : Nat),
      now - h.lastSeenAt > (th : Int) * MS_PER_HOUR →
      (isJobHealthy now (some h) th).healthy = false) ∧
    (∀ (now : Int) (h : HeartbeatRecord) (th : Nat),
      now - h.lastSeenAt ≤ (th : Int) * MS_PER_HOUR → h.lastStatus ≠ "failed" →
      (isJobHealthy now (some h) th).healthy = true) ∧
    (∀ (now : Int) (hb : Option HeartbeatRecord),
      isJobHealthyDefault now hb = isJobHealthy now hb 25) := by
  refine ⟨fun now th => rfl, ?_, ?_, ?_, fun now hb => rfl⟩
  · intro now h th hfail
    by_cases hst : now - h.lastSeenAt > (th : Int) * MS_PER_HOUR
    · simp [isJobHealthy, hst]
    · simp [isJobHealthy, hst, hfail]
  · intro now h th hst
    simp [isJobHealthy, hst]
  · intro now h th hst hfail
    have hst2 : ¬ now - h.lastSeenAt > (th : Int) * MS_PER_HOUR := by omega
    simp [isJobHealthy, hst2, hfail]

/-- Witness for C6 at the unit tests' concrete times (now =
2024-01-15T10:00:00Z as epoch ms): a missing record, a recent `failed`
heartbeat, a 26-hour-old `success` heartbeat against the 25-hour threshold,
and a recent `running` heartbeat. -/
theorem isJobHealthy_spec_check :
    (isJobHealthy 1705312800000 none 25 = ⟨false, some "No heartbeat record found"⟩) ∧
    ((isJobHealthy 1705312800000
      (some ⟨"cron_a", 1705309200000, "failed", some "API timeout"⟩) 25).healthy = false) ∧
    ((isJobHealthy 1705312800000
      (some ⟨"cron_a", 1705219200000, "success", none⟩) 25).healthy = false) ∧
    ((isJobHealthy 1705312800000
      (some ⟨"cron_a", 1705311000000, "running", none⟩) 25).healthy = true) ∧
    (isJobHealthyDefault 1705312800000 none = isJobHealthy 1705312800000 none 25) :=
  ⟨isJobHealthy_spec.1 _ _,
   isJobHealthy_spec.2.1 _ _ _ rfl,
   isJobHealthy_spec.2.2.1 _ _ _ (by decide),
   isJobHealthy_spec.2.2.2.1 _ _ _ (by decide) (by decide),
   isJobHealthy_spec.2.2.2.2 _ _⟩

/-! ## Paginated API fetch (spec §4.3; implementation file
`jquants/client.ts` is not in the source tree — only its unit tests are — so
the pagination drain is modelled from the spec).  The HTTP layer is a
parameter mapping a pagination key to the parsed response
`{ data, pagination_key? }`. -/

/-- One parsed API response: items and the optional continuation key. -/
structure PageResponse (α : Type) where
  data : List α
  paginationKey : Option String
deriving Repr, DecidableEq

/-- Observable event of the pagination loop: an underlying HTTP request with
the pagination key it carries, or a page of items yielded to the consumer. -/
inductive FetchEvent (α : Type) where
  | request (key : Option String)
  | yieldPage (items : List α)
deriving Repr, DecidableEq

/-- Modelled from the spec: the pagination loop of `getEquityBarsDaily` /
`getEquityBarsDailyPaginated` in `jquants/client.ts` (file not in the source
tree).  Per spec §4.3 it repeatedly calls `request` with the previous page's
token until a response omits the token, yielding each page's items before
fetching the next; `fuel` bounds the (source-unbounded) loop and is
irrelevant whenever the response chain terminates within it.  Returns the
event trace and the accumulated items. -/
def drainPaginated (fetch : Option String → PageResponse α) :
    Nat → Option String → List (FetchEvent α) × List α
  | 0, _ => ([], [])
  | fuel + 1, key =>
    let page := fetch key
    match page.paginationKey with
    | none => ([FetchEvent.request key, FetchEvent.yieldPage page.data], page.data)
    | some k =>
      let tail := drainPaginated fetch fuel (some k)
      (FetchEvent.request key :: FetchEvent.yieldPage page.data :: tail.1,
        page.data ++ tail.2)

/-- Number of underlying HTTP requests in a pagination event trace. -/
def countRequests : List (FetchEvent α) → Nat
  | [] => 0
  | FetchEvent.request _ :: rest => 1 + countRequests rest
  | FetchEvent.yieldPage _ :: rest => countRequests rest

/-- C8: when the first response carries a continuation key `k` and the
response to `k` omits it, the drain performs exactly 2 underlying HTTP calls,
yields each page's items before the next page is fetched (the event trace is
request/yield/request/yield), and accumulates exactly the concatenation of
the two pages' items in page order. -/
theorem drainPaginated_two_pages (α : Type) (fetch : Option String → PageResponse α)
    (k : String) (fuel : Nat)
    (h1 : (fetch none).paginationKey = some k)
    (h2 : (fetch (some k)).paginationKey = none)
    (hf : 2 ≤ fuel) :
    drainPaginated fetch fuel none =
      ([FetchEvent.request none, FetchEvent.yieldPage (fetch none).data,
        FetchEvent.request (some k), FetchEvent.yieldPage (fetch (some k)).data],
       (fetch none).data ++ (fetch (some k)).data) ∧
    countRequests (drainPaginated fetch fuel none).1 = 2 := by
  match fuel with
  | 0 => omega
  | 1 => omega
  | n + 2 =>
    have hmain : drainPaginated fetch (n + 2) none =
        ([FetchEvent.request none, FetchEvent.yieldPage (fetch none).data,
          FetchEvent.request (some k), FetchEvent.yieldPage (fetch (some k)).data],
         (fetch none).data ++ (fetch (some k)).data) := by
      simp [drainPaginated, h1, h2]
    refine ⟨hmain, ?_⟩
    rw [hmain]
    rfl

/-- Witness for C8 at the unit test's concrete two-page exchange: page 1 with
one bar and continuation key `page2`, page 2 with one bar and no key. -/
theorem drainPaginated_two_pages_check :
    drainPaginated
      (fun key => if key == some "page2" then ⟨["bar-2024-01-16"], none⟩
        else ⟨["bar-2024-01-15"], some "page2"⟩) 2 none =
      ([FetchEvent.request none,
        FetchEvent.yieldPage ((fun (key : Option String) =>
          if key == some "page2" then (⟨["bar-2024-01-16"], none⟩ : PageResponse String)
          else ⟨["bar-2024-01-15"], some "page2"⟩) none).data,
        FetchEvent.request (some "page2"),
        FetchEvent.yieldPage ((fun (key : Option String) =>
          if key == some "page2" then (⟨["bar-2024-01-16"], none⟩ : PageResponse String)
          else ⟨["bar-2024-01-15"], some "page2"⟩) (some "page2")).data],
       ((fun (key : Option String) =>
          if key == some "page2" then (⟨["bar-2024-01-16"], none⟩ : PageResponse String)
          else ⟨["bar-2024-01-15"], some "page2"⟩) none).data ++
       ((fun (key : Option String) =>
          if key == some "page2" then (⟨["bar-2024-01-16"], none⟩ : PageResponse String)
          else ⟨["bar-2024-01-15"], some "page2"⟩) (some "page2")).data) ∧
    countRequests (drainPaginated
      (fun key => if key == some "page2" then (⟨["bar-2024-01-16"], none⟩ : PageResponse String)
        else ⟨["bar-2024-01-15"], some "page2"⟩) 2 none).1 = 2 :=
  drainPaginated_two_pages String
    (fun key => if key == some "page2" then ⟨["bar-2024-01-16"], none⟩
      else ⟨["bar-2024-01-15"], some "page2"⟩)
    "page2" 2 (by decide) (by decide) (by decide)

/-! ## Cron B entrypoint (src: `app/api/cron/jquants/b/route.ts`).  The route
is a straight-line async function with try/catch/finally; each awaited
collaborator is a parameter of the world record, a rejected promise being
`Except.error`.  `completeJobRun` and `updateHeartbeat` swallow their own DB
errors but their awaits can still reject at the transport level, so they are
modelled as fallible here; the claim holds for every combination. -/

/-- Result record of `handleCronB` (`{ success, announcementDate?, fetched,
inserted, error? }`). -/
structure CronBHandlerResult where
  success : Bool
  announcementDate : Option String
  fetched : Nat
  inserted : Nat
  error : Option String
deriving Repr, DecidableEq

/-- The HTTP response produced by the route, by branch: 401 auth failure,
409 lock not acquired, 200 "Job already executed", 200 completion payload,
500 internal error (detail only in development). -/
inductive CronBResponse where
  | authFailed
  | lockHeld (detail : Option String)
  | alreadyExecuted (detail : String)
  | completed (success : Bool) (runId : String) (announcementDate : Option String)
      (fetched inserted : Nat) (error : Option String)
  | internalError (detail : Option String) (runId : Option String)
deriving Repr, DecidableEq

/-- HTTP status code of each response branch, as in the source. -/
def cronBStatus : CronBResponse → Nat
  | CronBResponse.authFailed => 401
  | CronBResponse.lockHeld _ => 409
  | CronBResponse.alreadyExecuted _ => 200
  | CronBResponse.completed _ _ _ _ _ _ => 200
  | CronBResponse.internalError _ _ => 500

/-- Observable side effect of the route on the lock: the `releaseLock` call
issued in the `finally` block, with the job name, the token presented and the
outcome of the awaited call (an `Except.error` is the release failing). -/
inductive RouteEvent where
  | releaseAttempt (jobName token : String) (outcome : Except String Unit)
deriving Repr

/-- Environment of one `POST /api/cron/jquants/b` execution: the outcome of
every awaited collaborator, in source order. -/
structure CronBWorld where
  authorized : Bool
  lockResult : AcquireResult
  startResult : StartJobRunResult
  heartbeatRunning : Except String Unit
  handler : Except String CronBHandlerResult
  completeRun : Except String Unit
  heartbeatFinal : Except String Unit
  isDev : Bool
  releaseOutcome : Except String Unit
deriving Repr

/-- The catch block of the route: best-effort cleanup (failures swallowed via
`Promise.allSettled`), then a 500 whose detail is masked outside
development. -/
def cronBCatch (isDev : Bool) (runId : String) (msg : String) : CronBResponse :=
  CronBResponse.internalError (if isDev then some msg else none)
    (if runId == "" then none else some runId)

/-- The try block of the route (steps 3–8 of the source): start the run —
an "already executed" start error returns 200 early — then heartbeat
`running`, the handler, `completeJobRun`, the final heartbeat, and the
completion payload; any rejection falls to the catch block. -/
def cronBTry (w : CronBWorld) : CronBResponse :=
  match w.startResult.error with
  | some err => CronBResponse.alreadyExecuted err
  | none =>
    let runId := w.startResult.runId
    match w.heartbeatRunning with
    | Except.error e => cronBCatch w.isDev runId e
    | Except.ok _ =>
      match w.handler with
      | Except.error e => cronBCatch w.isDev runId e
      | Except.ok result =>
        match w.completeRun with
        | Except.error e => cronBCatch w.isDev runId e
        | Except.ok _ =>
          match w.heartbeatFinal with
          | Except.error e => cronBCatch w.isDev runId e
          | Except.ok _ =>
            CronBResponse.completed result.success runId result.announcementDate
              result.fetched result.inserted result.error

/-- Embeds `POST` of `app/api/cron/jquants/b/route.ts`: auth check, lock
acquisition (409 when not acquired), then the try/catch body; the `finally`
block always attempts `releaseLock(supabase, JOB_NAME, lockToken)` and its
own failure is caught and logged, leaving the response untouched. -/
def postCronB (w : CronBWorld) : CronBResponse × List RouteEvent :=
  if w.authorized = false then (CronBResponse.authFailed, [])
  else if w.lockResult.success = false then (CronBResponse.lockHeld w.lockResult.error, [])
  else
    let lockToken := w.lockResult.token.getD ""
    (cronBTry w, [RouteEvent.releaseAttempt "cron_b" lockToken w.releaseOutcome])


/-- C9: in every execution that reaches the lock and in which `acquireLock`
succeeds, `releaseLock` is invoked exactly once, with the job name and the
acquired token, on every exit path of the route (normal completion,
handler-reported failure, the "already executed" early return, and every
thrown exception), and the outcome of the release itself never changes the
HTTP response. -/
theorem postCronB_always_releases (w : CronBWorld) (tok : String)
    (ha : w.authorized = true)
    (hs : w.lockResult.success = true)
    (ht : w.lockResult.token = some tok) :
    ((postCronB w).2 = [RouteEvent.releaseAttempt "cron_b" tok w.releaseOutcome]) ∧
    (∀ r1 r2 : Except String Unit,
      (postCronB { w with releaseOutcome := r1 }).1 =
      (postCronB { w with releaseOutcome := r2 }).1) ∧
    ((postCronB w).1 = cronBTry w) := by
  refine ⟨?_, ?_, ?_⟩
  · simp [postCronB, ha, hs, ht]
  · intro r1 r2
    simp only [postCronB, ha, hs]
    rfl
  · simp [postCronB, ha, hs]

/-- Witness for C9: a concrete run in which the handler throws and the
release itself fails — the 500 response is unchanged by the release failure
and the release attempt is still the recorded lock event. -/
theorem postCronB_always_releases_check :
    ((postCronB
      ⟨true, ⟨true, some "mock-uuid-token", none⟩, ⟨"run-123", none⟩, Except.ok (),
        Except.error "API timeout", Except.ok (), Except.ok (), false,
        Except.error "Delete failed"⟩).2 =
      [RouteEvent.releaseAttempt "cron_b" "mock-uuid-token" (Except.error "Delete failed")]) ∧
    (∀ r1 r2 : Except String Unit,
      (postCronB
        { (⟨true, ⟨true, some "mock-uuid-token", none⟩, ⟨"run-123", none⟩, Except.ok (),
            Except.error "API timeout", Except.ok (), Except.ok (), false,
            Except.error "Delete failed"⟩ : CronBWorld) with releaseOutcome := r1 }).1 =
      (postCronB
        { (⟨true, ⟨true, some "mock-uuid-token", none⟩, ⟨"run-123", none⟩, Except.ok (),
            Except.error "API timeout", Except.ok (), Except.ok (), false,
            Except.error "Delete failed"⟩ : CronBWorld) with releaseOutcome := r2 }).1) ∧
    ((postCronB
      ⟨true, ⟨true, some "mock-uuid-token", none⟩, ⟨"run-123", none⟩, Except.ok (),
        Except.error "API timeout", Except.ok (), Except.ok (), false,
        Except.error "Delete failed"⟩).1 =
      cronBTry
        ⟨true, ⟨true, some "mock-uuid-token", none⟩, ⟨"run-123", none⟩, Except.ok (),
          Except.error "API timeout", Except.ok (), Except.ok (), false,
          Except.error "Delete failed"⟩) :=
  postCronB_always_releases _ "mock-uuid-token" rfl rfl rfl
